import Mathlib

/-!
Shallow embedding of the download-orchestration core of the
Estrategia-Downloader repository (files `config_manager.py` and
`downloader.py`).  Python dictionaries holding JSON-like configuration
data are modelled by the inductive type `JValue`; Python dict objects
are association lists keyed by strings, with `dict.get` / item
assignment translated to `alookup` / `dictUpdate`.  Stateful classes
become explicit state records with their methods as state-passing
functions.  External effects (keyring, filesystem existence checks,
network processors) are oracles passed in as parameters.
-/

/-- JSON-like Python values as stored in the configuration dictionaries. -/
inductive JValue where
  | null : JValue
  | bool : Bool → JValue
  | num : Int → JValue
  | str : String → JValue
  | arr : List JValue → JValue
  | obj : List (String × JValue) → JValue

/-- Discriminator: is this value a Python dict (mapping)? -/
def JValue.isObj : JValue → Bool
  | JValue.obj _ => true
  | _ => false

/-- Python `x == s` for a string literal `s`: true exactly when `x` is that
string. -/
def JValue.isStrEq : JValue → String → Bool
  | JValue.str t, s => t = s
  | _, _ => false

/-- First-match lookup in a Python dict modelled as an association list
(`d.get(k)` / `d[k]`). -/
def alookup (fs : List (String × JValue)) (k : String) : Option JValue :=
  match fs with
  | [] => none
  | (k', v) :: rest => if k' = k then some v else alookup rest k

/-- Python dict item assignment `d[k] = v`: replaces the value of an existing
key in place (keeping insertion order), otherwise appends the new pair.
Dict keys are unique, so replacing the first occurrence is exact. -/
def dictUpdate : List (String × JValue) → String → JValue →
    List (String × JValue)
  | [], k, v => [(k, v)]
  | p :: rest, k, v =>
    if p.1 = k then (k, v) :: rest else p :: dictUpdate rest k v

/-- Python truthiness `bool(x)` restricted to `JValue`. -/
def truthy : JValue → Bool
  | JValue.null => false
  | JValue.bool b => b
  | JValue.num n => n ≠ 0
  | JValue.str s => s ≠ ""
  | JValue.arr l => ¬ l.isEmpty
  | JValue.obj l => ¬ l.isEmpty

/-- `ConfigManager.get(*keys, default=...)` (config_manager.py, lines
239-256): walks the nested mapping; at each step a mapping that lacks the
key yields the default and the walk continues through the default; a
non-mapping intermediate value short-circuits to the default. -/
def cfgGet (v : JValue) (keys : List String) (d : JValue) : JValue :=
  match keys with
  | [] => v
  | k :: ks =>
    match v with
    | JValue.obj fs => cfgGet ((alookup fs k).getD d) ks d
    | _ => d

/-- `ConfigManager.set(*keys, value=...)` (config_manager.py, lines 258-279)
acting on the field list of the top-level config dict: intermediate missing
or non-dict nodes are replaced by fresh empty dicts, then the last key is
assigned. An empty key list is a logged no-op. -/
def dictSet (fs : List (String × JValue)) (keys : List String) (v : JValue) :
    List (String × JValue) :=
  match keys with
  | [] => fs
  | [k] => dictUpdate fs k v
  | k :: ks =>
    let sub : List (String × JValue) :=
      match alookup fs k with
      | some (JValue.obj g) => g
      | _ => []
    dictUpdate fs k (JValue.obj (dictSet sub ks v))

/-- `ConfigManager._get_default_config` (config_manager.py, lines 111-132),
parametrised by the user's home directory (`Path.home()`). -/
def defaultConfigFields (home : String) : List (String × JValue) :=
  [ ("email", JValue.str ""),
    ("downloadType", JValue.str "pdf"),
    ("headless", JValue.bool false),
    ("pdfConfig", JValue.obj
      [ ("pastaDownloads", JValue.str (home ++ "/Downloads/Estrategia_PDFs")),
        ("pdfType", JValue.num 2),
        ("baixarMateriaisDeVideo", JValue.bool false) ]),
    ("videoConfig", JValue.obj
      [ ("pastaDownloads", JValue.str (home ++ "/Downloads/Estrategia_Videos")),
        ("resolucaoEscolhida", JValue.str "720p"),
        ("baixarExtras", JValue.bool true) ]) ]

def defaultConfig (home : String) : JValue :=
  JValue.obj (defaultConfigFields home)

/-!
## Per-course processing (`DownloadManager._process_course`, downloader.py)
The collaborating processors are opaque: a processor is represented by the
construction parameters the orchestrator passes to it, and the outcome of
its `process_course` call is an oracle supplied by the environment.
-/

/-- Construction parameters of a processor run, as recorded by
`_create_pdf_processor`, `_create_video_processor` and
`_create_video_processor_for_extras` (downloader.py, lines 319-385). -/
structure ProcessorRun where
  kind : String
  baseDir : JValue
  skipVideo : Bool
  downloadExtras : Bool

/-- `_create_pdf_processor(session)`: destination is the pdf download folder;
PDF processors have no video-mode flags (recorded as false). -/
def createPdfProcessor (cfg : JValue) : ProcessorRun :=
  { kind := "pdf",
    baseDir := cfgGet cfg ["pdfConfig", "pastaDownloads"] JValue.null,
    skipVideo := false,
    downloadExtras := false }

/-- `_create_video_processor(session)`: destination is the video download
folder, `skip_video=False`, `download_extras` from videoConfig (default
True). -/
def createVideoProcessor (cfg : JValue) : ProcessorRun :=
  { kind := "video",
    baseDir := cfgGet cfg ["videoConfig", "pastaDownloads"] JValue.null,
    skipVideo := false,
    downloadExtras :=
      truthy (cfgGet cfg ["videoConfig", "baixarExtras"] (JValue.bool true)) }

/-- `_create_video_processor_for_extras(session)` (downloader.py, lines
366-385): extras-only video processor, `skip_video=True`,
`download_extras=True`, destination = the PDF download folder. -/
def createVideoProcessorForExtras (cfg : JValue) : ProcessorRun :=
  { kind := "video",
    baseDir := cfgGet cfg ["pdfConfig", "pastaDownloads"] JValue.null,
    skipVideo := true,
    downloadExtras := true }

/-- `_process_course(page, course_url, session)` (downloader.py, lines
261-317), with the primary processor's `process_course` outcome supplied as
the oracle `primaryResult`. Returns the boolean result together with the
list of processor runs performed, in execution order. The supplementary
extras run is appended only when the primary run succeeded, the configured
download type is "pdf", and `config.get("pdfConfig", "baixarExtrasComPdf",
default=False)` is truthy. -/
def processCourse (cfg : JValue) (primaryResult : Bool) :
    Bool × List ProcessorRun :=
  let downloadType : JValue :=
    match cfg with
    | JValue.obj fs => (alookup fs "downloadType").getD (JValue.str "pdf")
    | _ => JValue.str "pdf"
  let primary : ProcessorRun :=
    if downloadType.isStrEq "pdf" then createPdfProcessor cfg
    else createVideoProcessor cfg
  let success := primaryResult
  let extrasRuns : List ProcessorRun :=
    if success ∧ downloadType.isStrEq "pdf" then
      let baixarExtras :=
        cfgGet cfg ["pdfConfig", "baixarExtrasComPdf"] (JValue.bool false)
      if truthy baixarExtras then [createVideoProcessorForExtras cfg] else []
    else []
  (success, primary :: extrasRuns)

/-!
## Resumable progress ledger (`ProgressManager`, config_manager.py)
The in-memory dict `self.progress` and the persisted `progress.json`
content are both modelled as association lists from keys to booleans;
`save_progress` (temp-file write + atomic rename) is modelled as copying
the in-memory dict into the file component.
-/

/-- Python dict assignment for the progress dict: replace the existing
key's value in place, else append (dict keys are unique). -/
def progUpdate : List (String × Bool) → String → Bool → List (String × Bool)
  | [], k, v => [(k, v)]
  | p :: rest, k, v =>
    if p.1 = k then (k, v) :: rest else p :: progUpdate rest k v

/-- `dict.get(key, False)` on the progress dict. -/
def progLookup : List (String × Bool) → String → Bool
  | [], _ => false
  | p :: rest, k => if p.1 = k then p.2 else progLookup rest k

/-- State of a `ProgressManager`: the in-memory progress dict and the
content of the persisted `progress.json` file. -/
structure LedgerState where
  progress : List (String × Bool)
  file : List (String × Bool)
deriving DecidableEq

/-- `ProgressManager.is_completed(key)` (lines 382-392):
`self.progress.get(key, False)`. -/
def isCompleted (s : LedgerState) (k : String) : Bool :=
  progLookup s.progress k

/-- `ProgressManager.mark_completed(key)` (lines 394-402): sets the key to
True and immediately persists the whole dict. -/
def markCompleted (s : LedgerState) (k : String) : LedgerState :=
  let p := progUpdate s.progress k true
  { progress := p, file := p }

/-- `ProgressManager.clear()` (lines 404-408): empties the dict and
persists. -/
def ledgerClear (_s : LedgerState) : LedgerState :=
  { progress := [], file := [] }

/-- Process restart: `ProgressManager.__init__` reloads `self.progress`
from the persisted file (`_load_progress`, lines 338-362). -/
def ledgerRestart (s : LedgerState) : LedgerState :=
  { progress := s.file, file := s.file }

/-- Ledger operations other than `clear`: further completions and process
restarts. -/
inductive LedgerOp where
  | mark (k : String) : LedgerOp
  | restart : LedgerOp

def applyLedgerOp (s : LedgerState) : LedgerOp → LedgerState
  | LedgerOp.mark k => markCompleted s k
  | LedgerOp.restart => ledgerRestart s

def applyLedgerOps (s : LedgerState) : List LedgerOp → LedgerState
  | [] => s
  | op :: ops => applyLedgerOps (applyLedgerOp s op) ops

/-!
## Course queue store (`CourseUrlManager`, config_manager.py)
`_validate_url` relies on Python's `urllib.parse.urlparse`; the model
below implements the scheme/netloc/path splitting of CPython's `urlsplit`
for inputs without embedded control characters (the stdlib additionally
strips ASCII control characters, which no input considered here
contains).
-/

/-- Characters stripped by Python's `str.strip()` with no argument, and
matched by the regex class `\s` (ASCII range). -/
def isPySpace (c : Char) : Bool :=
  c = ' ' ∨ c = '\t' ∨ c = '\n' ∨ c = '\x0d' ∨ c = '\x0b' ∨ c = '\x0c'

/-- Python `str.strip()`: remove leading and trailing whitespace. -/
def pyStrip (s : String) : String :=
  String.mk (((s.toList.dropWhile isPySpace).reverse.dropWhile isPySpace).reverse)

/-- Python substring test `needle in hay`. -/
def strContains (hay needle : String) : Bool :=
  (hay.toList.tails).any (fun t => needle.toList.isPrefixOf t)

/-- Python `str.endswith(suffix)`. -/
def strEndsWith (s suffix : String) : Bool :=
  suffix.toList.isSuffixOf s.toList

/-- Python single-character membership `c in s`. -/
def strHasChar (s : String) (c : Char) : Bool :=
  s.toList.any (fun x => x = c)

/-- Python `str.split(sep)` for a one-character separator: splits on every
occurrence, keeping empty pieces. -/
def splitChar (c : Char) : List Char → List (List Char)
  | [] => [[]]
  | x :: rest =>
    let r := splitChar c rest
    if x = c then [] :: r
    else
      match r with
      | [] => [[x]]
      | g :: gs => (x :: g) :: gs

/-- Characters allowed in a URL scheme after the first (CPython
`scheme_chars`). -/
def isSchemeChar (c : Char) : Bool :=
  c.isAlpha ∨ c.isDigit ∨ c = '+' ∨ c = '-' ∨ c = '.'

/-- CPython `urlsplit` scheme detection: a ':' preceded by an ASCII letter
followed by scheme characters splits off a lowercased scheme. Returns
(scheme, remainder). -/
def splitScheme (cs : List Char) : List Char × List Char :=
  match cs.findIdx? (fun c => c = ':') with
  | some i =>
    let headAlpha : Bool :=
      match cs.head? with
      | some c => c.isAlpha
      | none => false
    if 0 < i ∧ headAlpha ∧ (cs.take i).all isSchemeChar then
      ((cs.take i).map Char.toLower, cs.drop (i + 1))
    else ([], cs)
  | none => ([], cs)

/-- CPython `_splitnetloc`: after a leading "//", the netloc extends to the
first of '/', '?' or '#'. Returns (netloc, remainder). -/
def splitNetloc (cs : List Char) : List Char × List Char :=
  match cs with
  | '/' :: '/' :: rest =>
    (rest.takeWhile (fun c => ¬ (c = '/' ∨ c = '?' ∨ c = '#')),
     rest.dropWhile (fun c => ¬ (c = '/' ∨ c = '?' ∨ c = '#')))
  | _ => ([], cs)

/-- The components of `urlparse` used by `_validate_url`. -/
structure SplitResult where
  scheme : String
  netloc : String
  path : String
deriving DecidableEq

/-- CPython `urlsplit(url)` restricted to scheme, netloc and path: scheme
split, optional netloc, then the path is cut at the first '#' (fragment)
and then at the first '?' (query) — together, at the first of the two. -/
def urlsplit (u : String) : SplitResult :=
  let (scheme, rest) := splitScheme u.toList
  let (netloc, rest2) := splitNetloc rest
  let path := rest2.takeWhile (fun c => ¬ (c = '?' ∨ c = '#'))
  { scheme := String.mk scheme, netloc := String.mk netloc,
    path := String.mk path }

/-- CPython `urlsplit` raises `ValueError` ("Invalid IPv6 URL") when the
netloc contains exactly one of '[' and ']'. -/
def bracketMismatch (netloc : String) : Bool :=
  (strHasChar netloc '[' ∧ ¬ strHasChar netloc ']') ∨
  (strHasChar netloc ']' ∧ ¬ strHasChar netloc '[')

/-- `CourseUrlManager._validate_url(url)` (config_manager.py, lines
597-630): scheme must be http/https, the netloc must contain the platform
domain as a substring, the path must contain "/cursos/" and end with
"/aulas". A `ValueError` from `urlparse` is caught and yields False. -/
def validate_url (url : String) : Bool :=
  let r := urlsplit url
  if bracketMismatch r.netloc then false
  else if ¬ (r.scheme = "http" ∨ r.scheme = "https") then false
  else if ¬ strContains r.netloc "estrategiaconcursos.com.br" then false
  else if ¬ strContains r.path "/cursos/" then false
  else if ¬ strEndsWith r.path "/aulas" then false
  else true

/-- Python `str.title()` (ASCII letters): the first letter after a
non-letter is uppercased, subsequent letters lowercased. -/
def pyTitleAux : List Char → Bool → List Char
  | [], _ => []
  | c :: rest, prevAlpha =>
    if c.isAlpha then
      (if prevAlpha then c.toLower else c.toUpper) :: pyTitleAux rest true
    else
      c :: pyTitleAux rest false

def pyTitle (s : String) : String :=
  String.mk (pyTitleAux s.toList false)

/-- `re.sub(r'\s\d+$', '', title)`: drop a trailing run of digits preceded
by one whitespace character, when present at the very end. -/
def stripTrailingId (s : String) : String :=
  let r := s.toList.reverse
  let ds := r.takeWhile Char.isDigit
  if ds.isEmpty then s
  else
    match r.drop ds.length with
    | c :: rest => if isPySpace c then String.mk rest.reverse else s
    | [] => s

/-- `CourseUrlManager._extract_title_from_url(url)` (config_manager.py,
lines 560-595): slug selection from the non-empty '/'-separated parts,
hyphens to spaces, Python title-casing, trailing numeric id stripped. -/
def extractTitleFromUrl (url : String) : String :=
  let parts :=
    ((splitChar '/' url.toList).map String.mk).filter (fun p => p ≠ "")
  let slug :=
    if parts.contains "aulas" then
      match parts.findIdx? (fun p => p = "aulas") with
      | some idx =>
        if 0 < idx then parts.getD (idx - 1) "Curso Desconhecido"
        else "Curso Desconhecido"
      | none => "Curso Desconhecido"
    else
      match parts.reverse.find? (fun p => strHasChar p '-' ∧ p.length > 5) with
      | some p => p
      | none => "Curso Desconhecido"
  let spaced := String.mk (slug.toList.map (fun c => if c = '-' then ' ' else c))
  stripTrailingId (pyTitle spaced)

/-- A course entry `{url, title}`. -/
structure CourseEntry where
  url : String
  title : String
deriving DecidableEq

/-- State of a `CourseUrlManager`: the in-memory list `self.urls` and the
content of the persisted `course-urls.json` file. -/
structure UrlStore where
  urls : List CourseEntry
  file : List CourseEntry
deriving DecidableEq

/-- `CourseUrlManager.add_url(url)` (config_manager.py, lines 493-522):
strip, validate, reject duplicates by exact URL, else append a new entry
with a synthesized title and persist. -/
def add_url (s : UrlStore) (rawUrl : String) : Bool × UrlStore :=
  let url := pyStrip rawUrl
  if ¬ validate_url url then (false, s)
  else if s.urls.any (fun c => c.url = url) then (false, s)
  else
    let title := extractTitleFromUrl url
    let urls' := s.urls ++ [{ url := url, title := title }]
    (true, { urls := urls', file := urls' })

/-- `CourseUrlManager.remove_url(url)` (config_manager.py, lines 524-543):
rebuild the list without every entry whose url equals the argument; persist
and return True only when the list shrank. -/
def remove_url (s : UrlStore) (url : String) : Bool × UrlStore :=
  let urls' := s.urls.filter (fun c => c.url ≠ url)
  if urls'.length < s.urls.length then
    (true, { urls := urls', file := urls' })
  else
    (false, { urls := urls', file := s.file })

/-!
## Reference-level model of `get_all` (C4)
`get_all` returns `self.urls.copy()` — a new list object holding the same
entry-dict references. To reason about caller-side mutation of those
shared dicts, entries live in a heap addressed by `Nat` references: the
store keeps a list of references, `get_all` hands the caller a fresh list
of the same references, and a caller writing through a reference updates
the heap that both views read.
-/

/-- A course entry dict object on the Python heap. -/
structure EntryObj where
  url : String
  title : String
deriving DecidableEq

/-- Heap of entry dicts, addressed by object identity. -/
abbrev Heap := List (Nat × EntryObj)

def heapRead : Heap → Nat → Option EntryObj
  | [], _ => none
  | p :: rest, a => if p.1 = a then some p.2 else heapRead rest a

/-- Caller-side mutation of an entry dict (e.g. `entry['url'] = ...`):
updates the object at the given address in place. -/
def heapWrite : Heap → Nat → EntryObj → Heap
  | [], _, _ => []
  | p :: rest, a, e =>
    (if p.1 = a then (a, e) else p) :: heapWrite rest a e

/-- The store's internal list of entry references (`self.urls` at the
object level). -/
structure RefStore where
  entries : List Nat
deriving DecidableEq

/-- `CourseUrlManager.get_all()` (config_manager.py, lines 545-552):
`self.urls.copy()` — a fresh list object containing the same references. -/
def getAllRefs (s : RefStore) : List Nat :=
  s.entries

/-- The entries the store actually holds, materialised through the heap. -/
def storeView (s : RefStore) (h : Heap) : List (Option EntryObj) :=
  s.entries.map (heapRead h)

/-!
## Run orchestration (`DownloadManager.start_downloads`, downloader.py,
lines 61-216)
The per-course call `await self._process_course(...)` is a collaborator
boundary; its outcome for each queued course is supplied by the
environment (`CourseOutcome`). Resource acquisition (HTTP session,
browser engine, browser context) is recorded as a list of events; the
`finally` block is modelled by `cleanupSteps`, reflecting that the
session close (line 201) is not wrapped in its own try/except while the
context close (lines 205-208) and the engine stop (lines 211-214) are.
-/

/-- Outcome of the `_process_course` call for one queued course. -/
inductive CourseOutcome where
  | ok : CourseOutcome
  | retFalse : CourseOutcome
  | raisesExc : CourseOutcome
  | raisesCancelled : CourseOutcome
deriving DecidableEq

/-- Accumulated effect of the per-course loop (downloader.py, lines
119-164): failure count, success count, and the 1-based indices of the
courses whose processing was attempted, in order. -/
structure LoopAcc where
  failed : Nat
  succeeded : Nat
  attempted : List Nat
deriving DecidableEq

/-- The `for i, course_item in enumerate(course_urls, 1)` loop: the cancel
flag is checked before each course and breaks the loop; a normal result
updates the counters; `asyncio.CancelledError` breaks after the attempt;
any other exception counts as a failure and the loop continues. -/
def runLoop (cancel : Nat → Bool) : List CourseOutcome → Nat → LoopAcc
  | [], _ => { failed := 0, succeeded := 0, attempted := [] }
  | o :: rest, i =>
    if cancel i then { failed := 0, succeeded := 0, attempted := [] }
    else
      match o with
      | CourseOutcome.ok =>
        let r := runLoop cancel rest (i + 1)
        { failed := r.failed, succeeded := r.succeeded + 1,
          attempted := i :: r.attempted }
      | CourseOutcome.retFalse =>
        let r := runLoop cancel rest (i + 1)
        { failed := r.failed + 1, succeeded := r.succeeded,
          attempted := i :: r.attempted }
      | CourseOutcome.raisesExc =>
        let r := runLoop cancel rest (i + 1)
        { failed := r.failed + 1, succeeded := r.succeeded,
          attempted := i :: r.attempted }
      | CourseOutcome.raisesCancelled =>
        { failed := 0, succeeded := 0, attempted := [i] }

/-- The `finally` block (downloader.py, lines 197-216) with all three
resources acquired: `await session.close()` is unguarded, so when it
raises, the context close and the engine stop are never reached and the
exception propagates; the latter two are each wrapped in try/except, so
their failures are swallowed and do not stop the sequence. Returns the
attempted steps in order and whether an exception escapes the block. -/
def cleanupSteps (sessionRaises contextRaises stopRaises : Bool) :
    List String × Bool :=
  if sessionRaises then (["closeSession"], true)
  else
    -- the guarded steps run whether or not contextRaises / stopRaises hold
    let _ := contextRaises
    let _ := stopRaises
    (["closeSession", "closeContext", "stopPlaywright"], false)

/-- Environment of one `start_downloads` run: the health-check verdict,
the queued courses (abstracted to their processing outcomes), the cancel
flag as observed before each 1-based course index, whether authentication
raises, and whether each cleanup step raises. -/
structure RunEnv where
  healthOk : Bool
  queue : List CourseOutcome
  cancelBefore : Nat → Bool
  authRaises : Bool
  sessionCloseRaises : Bool
  contextCloseRaises : Bool
  playwrightStopRaises : Bool

/-- Observable result of `start_downloads`: the returned boolean or a
propagated exception, the resource-acquisition events, the cleanup steps
attempted, and the loop's accounting. -/
structure RunResult where
  outcome : Except Unit Bool
  acquired : List String
  cleanupAttempted : List String
  attempted : List Nat
  failedCount : Nat
  succeededCount : Nat

/-- `DownloadManager.start_downloads` (downloader.py, lines 61-216): abort
on failed health check; abort with False on an empty queue before any
resource is acquired; otherwise acquire session, engine and context, run
the loop (an authentication exception is caught by the outer handler and
yields False), return `failed_count == 0`, and always run the `finally`
block, whose own exception (only possible from the unguarded session
close) replaces the outcome. -/
def start_downloads (env : RunEnv) : RunResult :=
  if ¬ env.healthOk then
    { outcome := Except.ok false, acquired := [], cleanupAttempted := [],
      attempted := [], failedCount := 0, succeededCount := 0 }
  else if env.queue.isEmpty then
    { outcome := Except.ok false, acquired := [], cleanupAttempted := [],
      attempted := [], failedCount := 0, succeededCount := 0 }
  else
    let acquired := ["session", "playwright", "context"]
    let body : LoopAcc × Bool :=
      if env.authRaises then
        ({ failed := 0, succeeded := 0, attempted := [] }, false)
      else
        let acc := runLoop env.cancelBefore env.queue 1
        (acc, acc.failed == 0)
    let clean := cleanupSteps env.sessionCloseRaises env.contextCloseRaises
      env.playwrightStopRaises
    { outcome := if clean.2 then Except.error () else Except.ok body.2,
      acquired := acquired,
      cleanupAttempted := clean.1,
      attempted := body.1.attempted,
      failedCount := body.1.failed,
      succeededCount := body.1.succeeded }

/-!
## Configuration validation (`ConfigManager.validate`, config_manager.py,
lines 281-326)
The keyring and the filesystem are oracles. The interpolated tails of the
error messages (the offending value or path) are omitted from the message
strings. A truthy non-string email makes the Python expression
`"@" not in email` raise `TypeError`, which `validate` does not catch —
modelled as `Except.error`.
-/

/-- Oracles consulted by `validate`: whether `get_password()` returns a
truthy value, and whether `Path(folder).parent.exists()` holds for a given
folder string. -/
structure ValidateEnv where
  passwordAvailable : Bool
  parentExists : String → Bool

/-- State of a `ConfigManager`: the top-level config dict and the content
of the persisted `config.json`. -/
structure CMState where
  config : List (String × JValue)
  configFile : List (String × JValue)

/-- One download-folder check of `validate`: skipped for falsy values; a
string folder checks its parent's existence; `Path(...)` on a non-string
raises and is caught, yielding the invalid-path error. -/
def folderErrors (folder : JValue) (env : ValidateEnv)
    (missingMsg invalidMsg : String) : List String :=
  if truthy folder then
    match folder with
    | JValue.str f => if ¬ env.parentExists f then [missingMsg] else []
    | _ => [invalidMsg]
  else []

/-- The email checks of `validate` (config_manager.py, lines 290-295):
missing/falsy email and missing '@' are collected as problems; a truthy
non-string email makes `"@" not in email` raise, modelled as
`Except.error`. -/
def emailErrors (cfg : List (String × JValue)) : Except Unit (List String) :=
  let email := (alookup cfg "email").getD JValue.null
  if ¬ truthy email then Except.ok ["Email não configurado"]
  else
    match email with
    | JValue.str e =>
      if ¬ strContains e "@" then Except.ok ["Email inválido"]
      else Except.ok []
    | _ => Except.error ()

/-- `ConfigManager.validate()`: collects all problems (email, password,
download type, both folder paths) without short-circuiting and returns
`(errors == [], errors)` together with the unchanged manager state. -/
def validateRun (s : CMState) (env : ValidateEnv) :
    Except Unit (Bool × List String) × CMState :=
  match emailErrors s.config with
  | Except.error _ => (Except.error (), s)
  | Except.ok e1 =>
    let e2 := if ¬ env.passwordAvailable then ["Senha não configurada"] else []
    let dt := (alookup s.config "downloadType").getD JValue.null
    let e3 :=
      if ¬ (dt.isStrEq "pdf" ∨ dt.isStrEq "video") then
        ["Tipo de download inválido"]
      else []
    let pdfFolder :=
      cfgGet (JValue.obj s.config) ["pdfConfig", "pastaDownloads"] JValue.null
    let e4 := folderErrors pdfFolder env
      "Pasta pai de PDFs não existe" "Caminho de pasta de PDFs inválido"
    let videoFolder :=
      cfgGet (JValue.obj s.config) ["videoConfig", "pastaDownloads"] JValue.null
    let e5 := folderErrors videoFolder env
      "Pasta pai de vídeos não existe" "Caminho de pasta de vídeos inválido"
    let errors := e1 ++ e2 ++ e3 ++ e4 ++ e5
    (Except.ok (errors.isEmpty, errors), s)

/-- Repeated calls to `validate` on the manager state. -/
def iterateValidate (s : CMState) (env : ValidateEnv) : Nat → CMState
  | 0 => s
  | n + 1 => iterateValidate (validateRun s env).2 env n

/-!
## Helper lemmas
-/

lemma progLookup_progUpdate (l : List (String × Bool)) (k k' : String) :
    progLookup (progUpdate l k' true) k =
      if k = k' then true else progLookup l k := by
  induction l with
  | nil =>
    by_cases h : k = k'
    · simp [progUpdate, progLookup, h]
    · have h' : ¬ k' = k := fun e => h e.symm
      simp [progUpdate, progLookup, h, h']
  | cons p rest ih =>
    by_cases hp : p.1 = k'
    · by_cases hk : k = k'
      · simp [progUpdate, progLookup, hp, hk]
      · have hk' : ¬ k' = k := fun e => hk e.symm
        have hpk : ¬ p.1 = k := fun e => hk (hp.symm.trans e).symm
        simp [progUpdate, progLookup, hp, hk, hk', hpk]
    · by_cases hpk : p.1 = k
      · have hk : ¬ k = k' := fun e => hp (hpk.trans e)
        simp [progUpdate, progLookup, hp, hpk, hk]
      · simp [progUpdate, progLookup, hp, hpk, ih]

lemma ledger_invariant (k : String) (ops : List LedgerOp) :
    ∀ s : LedgerState, isCompleted s k = true → progLookup s.file k = true →
      isCompleted (applyLedgerOps s ops) k = true ∧
      progLookup (applyLedgerOps s ops).file k = true := by
  induction ops with
  | nil => intro s h1 h2; exact ⟨h1, h2⟩
  | cons op rest ih =>
    intro s h1 h2
    cases op with
    | mark k' =>
      have hm : progLookup (progUpdate s.progress k' true) k = true := by
        rw [progLookup_progUpdate]
        by_cases hkk : k = k'
        · simp [hkk]
        · simpa [hkk] using h1
      exact ih (markCompleted s k') hm hm
    | restart => exact ih (ledgerRestart s) h2 h2

/-- Claim C7: once `mark_completed(k)` has run, `is_completed(k)` is true
immediately, stays true across any further sequence of `mark_completed`
calls (for this or other keys) and process restarts (reload from the
synchronously persisted file), the persisted file also records the key as
complete throughout, and only `clear()` resets it to false. -/
theorem claim_c7_completion_monotone_and_durable (k : String)
    (s : LedgerState) (ops : List LedgerOp) :
    isCompleted (markCompleted s k) k = true ∧
    isCompleted (applyLedgerOps (markCompleted s k) ops) k = true ∧
    progLookup (applyLedgerOps (markCompleted s k) ops).file k = true ∧
    isCompleted (ledgerClear (applyLedgerOps (markCompleted s k) ops)) k
      = false := by
  have h0 : progLookup (progUpdate s.progress k true) k = true := by
    rw [progLookup_progUpdate]; simp
  have h := ledger_invariant k ops (markCompleted s k) h0 h0
  exact ⟨h0, h.1, h.2, rfl⟩

lemma cfgGet_nonObj (d : JValue) (ks : List String) (h : d.isObj = false) :
    cfgGet d ks d = d := by
  cases ks with
  | nil => rfl
  | cons k ks =>
    cases d with
    | obj fs => simp [JValue.isObj] at h
    | null => rfl
    | bool b => rfl
    | num n => rfl
    | str s => rfl
    | arr l => rfl

/-- Claim C8: when `ConfigManager.get` meets a mapping that lacks the next
key, it substitutes the default and keeps traversing the remaining keys
through the default; if the default is not a mapping the final result is
the default itself, while a mapping default can yield a value drawn from
inside the default (witnessed by the last conjunct). `cfgGet` is a total
function, so no key path can raise. -/
theorem claim_c8_get_default_traversal (fs : List (String × JValue))
    (k : String) (ks : List String) (d : JValue)
    (h : alookup fs k = none) :
    cfgGet (JValue.obj fs) (k :: ks) d = cfgGet d ks d ∧
    (d.isObj = false → cfgGet (JValue.obj fs) (k :: ks) d = d) ∧
    cfgGet (JValue.obj []) ["a", "b"] (JValue.obj [("b", JValue.str "inner")])
      = JValue.str "inner" := by
  have h1 : cfgGet (JValue.obj fs) (k :: ks) d = cfgGet d ks d := by
    show cfgGet ((alookup fs k).getD d) ks d = cfgGet d ks d
    rw [h]
    rfl
  exact ⟨h1, fun hd => h1.trans (cfgGet_nonObj d ks hd), rfl⟩

/-- Closed instance of C8 at a concrete store and path: the mapping lacks
key "x", the non-mapping default is returned for the two-key path, and a
mapping default yields a value from inside itself. -/
theorem claim_c8_witness :
    cfgGet (JValue.obj []) ["x", "y"] (JValue.num 5)
      = cfgGet (JValue.num 5) ["y"] (JValue.num 5) ∧
    ((JValue.num 5).isObj = false →
      cfgGet (JValue.obj []) ["x", "y"] (JValue.num 5) = JValue.num 5) ∧
    cfgGet (JValue.obj []) ["a", "b"] (JValue.obj [("b", JValue.str "inner")])
      = JValue.str "inner" :=
  claim_c8_get_default_traversal [] "x" ["y"] (JValue.num 5) rfl

lemma validateRun_state (s : CMState) (env : ValidateEnv) :
    (validateRun s env).2 = s := by
  unfold validateRun
  cases h : emailErrors s.config with
  | error e => simp [h]
  | ok e1 => simp [h]

/-- Claim C10: `validate()` is a read-only check — it never changes the
in-memory configuration or the persisted config file, no matter the state
and no matter how many times it is called. -/
theorem claim_c10_validate_read_only (s : CMState) (env : ValidateEnv)
    (n : Nat) :
    (validateRun s env).2 = s ∧ iterateValidate s env n = s := by
  refine ⟨validateRun_state s env, ?_⟩
  induction n generalizing s with
  | zero => rfl
  | succ m ih =>
    show iterateValidate (validateRun s env).2 env m = s
    rw [validateRun_state]
    exact ih s

lemma length_filter_lt_iff_exists_not {α : Type} (p : α → Bool) (l : List α) :
    (l.filter p).length < l.length ↔ ∃ x ∈ l, p x = false := by
  induction l with
  | nil => simp
  | cons a rest ih =>
    by_cases h : p a
    · simp [List.filter_cons, h, Nat.succ_lt_succ_iff, ih]
    · simp only [List.filter_cons, h, if_neg]
      refine iff_of_true (Nat.lt_succ_of_le (List.length_filter_le p rest)) ?_
      exact ⟨a, List.mem_cons_self a rest, by simpa using h⟩

lemma remove_url_urls (s : UrlStore) (u : String) :
    (remove_url s u).2.urls = s.urls.filter (fun c => c.url ≠ u) := by
  simp only [remove_url]
  split <;> rfl

/-- Claim C9: `remove_url(u)` removes every entry whose url equals `u`
(not just the first), keeps the remaining entries in their relative order
(the result is a sublist of the original), returns True exactly when at
least one entry was removed, and leaves the persisted file untouched when
nothing was removed. -/
theorem claim_c9_remove_url_spec (s : UrlStore) (u : String) :
    (∀ e ∈ (remove_url s u).2.urls, e.url ≠ u) ∧
    List.Sublist (remove_url s u).2.urls s.urls ∧
    (∀ e ∈ s.urls, e.url ≠ u → e ∈ (remove_url s u).2.urls) ∧
    ((remove_url s u).1 = true ↔ ∃ e ∈ s.urls, e.url = u) ∧
    ((remove_url s u).1 = false → (remove_url s u).2.file = s.file) := by
  have hu := remove_url_urls s u
  refine ⟨?_, ?_, ?_, ?_, ?_⟩
  · intro e he
    rw [hu] at he
    exact of_decide_eq_true (List.mem_filter.mp he).2
  · rw [hu]
    exact List.filter_sublist s.urls
  · intro e he hne
    rw [hu]
    exact List.mem_filter.mpr ⟨he, decide_eq_true hne⟩
  · by_cases hc : (s.urls.filter (fun c => c.url ≠ u)).length < s.urls.length
    · have hex := (length_filter_lt_iff_exists_not
        (fun c => decide (c.url ≠ u)) s.urls).mp hc
      simp only [remove_url, if_pos hc]
      refine iff_of_true trivial ?_
      obtain ⟨x, hx, hpx⟩ := hex
      exact ⟨x, hx, by simpa using hpx⟩
    · simp only [remove_url, if_neg hc]
      constructor
      · intro hf; exact absurd hf (by simp)
      · intro ⟨x, hx, hxu⟩
        exact absurd ((length_filter_lt_iff_exists_not
          (fun c => decide (c.url ≠ u)) s.urls).mpr ⟨x, hx, by simp [hxu]⟩) hc
  · intro hf
    by_cases hc : (s.urls.filter (fun c => c.url ≠ u)).length < s.urls.length
    · simp only [remove_url, if_pos hc] at hf
      exact Bool.noConfusion hf
    · simp only [remove_url, if_neg hc]

/-- Closed instance of C9: removing url "b" from a two-entry queue keeps
entry "a"; removing an absent url "z" performs no persistence write. -/
theorem claim_c9_witness :
    (⟨"a", "t"⟩ : CourseEntry) ∈
      (remove_url ⟨[⟨"a", "t"⟩, ⟨"b", "t"⟩], []⟩ "b").2.urls ∧
    (remove_url ⟨[⟨"a", "t"⟩], [⟨"a", "t"⟩]⟩ "z").2.file = [⟨"a", "t"⟩] :=
  ⟨(claim_c9_remove_url_spec ⟨[⟨"a", "t"⟩, ⟨"b", "t"⟩], []⟩ "b").2.2.1
      ⟨"a", "t"⟩ (by decide) (by decide),
   (claim_c9_remove_url_spec ⟨[⟨"a", "t"⟩], [⟨"a", "t"⟩]⟩ "z").2.2.2.2
      (by decide)⟩

lemma heapRead_heapWrite (h : Heap) (a a' : Nat) (e : EntryObj) :
    heapRead (heapWrite h a e) a' =
      if a' = a then (heapRead h a').map (fun _ => e) else heapRead h a' := by
  induction h with
  | nil => by_cases hx : a' = a <;> simp [heapWrite, heapRead, hx]
  | cons p rest ih =>
    by_cases hpa : p.1 = a
    · by_cases hx : a' = a
      · simp [heapWrite, heapRead, hpa, hx]
      · have hpx : ¬ p.1 = a' := fun e' => hx (e'.symm.trans hpa)
        have hax : ¬ a = a' := fun e' => hx e'.symm
        simp [heapWrite, heapRead, hpa, hx, hpx, hax, ih]
    · by_cases hpx : p.1 = a'
      · have hx : ¬ a' = a := fun e' => hpa (hpx.trans e')
        simp [heapWrite, heapRead, hpa, hpx, hx]
      · simp [heapWrite, heapRead, hpa, hpx, ih]

/-- Claim C4 counterexample: `get_all` returns `self.urls.copy()`, a
shallow copy. With one stored entry object, the caller mutates the entry
dict reached through the returned list, and the store's own materialised
entries change: caller-side mutation is visible through `getAll`. -/
theorem claim_c4_cex_shallow_copy_aliasing :
    storeView ⟨[0]⟩
        (heapWrite [(0, ⟨"a", "t"⟩)] ((getAllRefs ⟨[0]⟩).getD 0 0) ⟨"b", "t"⟩)
      ≠ storeView ⟨[0]⟩ [(0, ⟨"a", "t"⟩)] := by
  decide

/-- Claim C4 (amended): `get_all` returns a fresh list holding the same
entry references (so reshaping the returned list cannot touch the store's
internal list), but the entry objects are shared: a caller writing through
a returned reference updates exactly the store entries at that reference,
which is visible in the store's materialised view. -/
theorem claim_c4_shared_entries_visible (s : RefStore) (h : Heap) (a : Nat)
    (e : EntryObj) (ha : a ∈ getAllRefs s)
    (he : (heapRead h a).isSome = true) :
    getAllRefs s = s.entries ∧
    some e ∈ storeView s (heapWrite h a e) ∧
    storeView s (heapWrite h a e) =
      s.entries.map (fun a' =>
        if a' = a then (heapRead h a').map (fun _ => e)
        else heapRead h a') := by
  have hfun : (fun a' => heapRead (heapWrite h a e) a') =
      (fun a' => if a' = a then (heapRead h a').map (fun _ => e)
        else heapRead h a') :=
    funext (fun a' => heapRead_heapWrite h a a' e)
  have hmap : storeView s (heapWrite h a e) =
      s.entries.map (fun a' =>
        if a' = a then (heapRead h a').map (fun _ => e)
        else heapRead h a') := by
    show s.entries.map (fun a' => heapRead (heapWrite h a e) a') = _
    rw [hfun]
  refine ⟨rfl, ?_, hmap⟩
  rw [hmap]
  have hval : (if a = a then (heapRead h a).map (fun _ => e)
      else heapRead h a) = some e := by
    rw [if_pos rfl]
    cases hr : heapRead h a with
    | none => rw [hr] at he; exact Bool.noConfusion he
    | some x => simp
  exact hval ▸ List.mem_map_of_mem _ ha

/-- Closed instance of C4 (amended): with one stored entry at reference 0,
writing through the reference returned by `get_all` makes the updated
entry appear in the store's view. -/
theorem claim_c4_witness :
    some (⟨"b", "t"⟩ : EntryObj) ∈
      storeView ⟨[0]⟩ (heapWrite [(0, ⟨"a", "t"⟩)] 0 ⟨"b", "t"⟩) :=
  (claim_c4_shared_entries_visible ⟨[0]⟩ [(0, ⟨"a", "t"⟩)] 0 ⟨"b", "t"⟩
    (by decide) (by decide)).2.1

/-- Claim C5 counterexample: the domain check of `_validate_url` is the
substring test `'estrategiaconcursos.com.br' in result.netloc`, so a URL
whose host merely embeds the platform domain — here a lookalike host under
`evil.com`, neither the platform domain nor one of its subdomains — is
accepted and added to the queue. -/
theorem claim_c5_cex_lookalike_host_accepted :
    (add_url ⟨[], []⟩
      "https://www.estrategiaconcursos.com.br.evil.com/cursos/meu-curso-legal/aulas").1
      = true ∧
    (urlsplit (pyStrip
      "https://www.estrategiaconcursos.com.br.evil.com/cursos/meu-curso-legal/aulas")).netloc
      ≠ "estrategiaconcursos.com.br" ∧
    strEndsWith (urlsplit (pyStrip
      "https://www.estrategiaconcursos.com.br.evil.com/cursos/meu-curso-legal/aulas")).netloc
      ".estrategiaconcursos.com.br" = false := by
  refine ⟨?_, ?_, ?_⟩ <;> decide

/-- Claim C5 (amended): `add_url` succeeds only if the trimmed URL has
scheme http or https, a netloc CONTAINING the platform domain as a
substring (the code's check — hosts merely containing the domain also
pass), a path containing the courses segment and ending in the lessons
suffix; and whenever validation fails, `add_url` returns False with the
queue and the persisted file unchanged. -/
theorem claim_c5_validation_gate (s : UrlStore) (u : String) :
    ((add_url s u).1 = true →
      ((urlsplit (pyStrip u)).scheme = "http" ∨
        (urlsplit (pyStrip u)).scheme = "https") ∧
      strContains (urlsplit (pyStrip u)).netloc "estrategiaconcursos.com.br"
        = true ∧
      strContains (urlsplit (pyStrip u)).path "/cursos/" = true ∧
      strEndsWith (urlsplit (pyStrip u)).path "/aulas" = true) ∧
    (validate_url (pyStrip u) = false → add_url s u = (false, s)) := by
  constructor
  · intro hadd
    have hv : validate_url (pyStrip u) = true := by
      by_contra hv
      have hfalse : (add_url s u).1 = false := by
        simp only [add_url, if_pos hv]
      rw [hadd] at hfalse
      exact Bool.noConfusion hfalse
    simp only [validate_url] at hv
    split_ifs at hv with hb h1 h2 h3 h4
    exact ⟨h1, h2, h3, h4⟩
  · intro hv
    have hv' : ¬ (validate_url (pyStrip u) = true) := by
      rw [hv]; exact Bool.noConfusion
    simp only [add_url, if_pos hv']

/-- Closed instance of C5 (amended): an ftp-scheme URL fails validation
and `add_url` rejects it leaving the empty store untouched. -/
theorem claim_c5_witness :
    validate_url (pyStrip "ftp://estrategiaconcursos.com.br/cursos/x/aulas")
      = false ∧
    add_url ⟨[], []⟩ "ftp://estrategiaconcursos.com.br/cursos/x/aulas"
      = (false, ⟨[], []⟩) :=
  ⟨by decide,
   (claim_c5_validation_gate ⟨[], []⟩
     "ftp://estrategiaconcursos.com.br/cursos/x/aulas").2 (by decide)⟩

/-- Claim C1 (code bug): the supplementary-extras flag defined under
`pdfConfig` in the default configuration is `baixarMateriaisDeVideo`
(documented in config_manager.py as the option to download extras together
with PDFs), but `_process_course` reads `pdfConfig.baixarExtrasComPdf`
(never defined anywhere) with default False. Setting the defined flag to
true therefore does NOT trigger the extras run: after a successful primary
pdf run only the pdf processor has run. Only the undefined key
`baixarExtrasComPdf` triggers the extras-only video run (skip_video=True,
download_extras=True, destination = the pdf download folder, strictly
after the primary run). -/
theorem claim_c1_pdf_extras_flag_key_mismatch :
    (let cfgA := JValue.obj (dictSet (defaultConfigFields "/home/u")
      ["pdfConfig", "baixarMateriaisDeVideo"] (JValue.bool true))
    cfgGet cfgA ["pdfConfig", "baixarMateriaisDeVideo"] (JValue.bool false)
        = JValue.bool true ∧
      (processCourse cfgA true).1 = true ∧
      (processCourse cfgA true).2 = [createPdfProcessor cfgA]) ∧
    (let cfgB := JValue.obj (dictSet (defaultConfigFields "/home/u")
      ["pdfConfig", "baixarExtrasComPdf"] (JValue.bool true))
    (processCourse cfgB true).2 =
      [createPdfProcessor cfgB,
       ⟨"video", JValue.str "/home/u/Downloads/Estrategia_PDFs",
        true, true⟩]) := by
  exact ⟨⟨rfl, rfl, rfl⟩, rfl⟩

/-- Claim C2 counterexample: with all three resources acquired and the
HTTP-session close raising, only the session-close step is attempted — the
browser-context close and the engine stop are skipped — and the exception
propagates out of `start_downloads`. -/
theorem claim_c2_cex_session_close_unguarded :
    (start_downloads
      { healthOk := true, queue := [CourseOutcome.ok],
        cancelBefore := fun _ => false, authRaises := false,
        sessionCloseRaises := true, contextCloseRaises := false,
        playwrightStopRaises := false }).cleanupAttempted
      = ["closeSession"] ∧
    (start_downloads
      { healthOk := true, queue := [CourseOutcome.ok],
        cancelBefore := fun _ => false, authRaises := false,
        sessionCloseRaises := true, contextCloseRaises := false,
        playwrightStopRaises := false }).outcome = Except.error () :=
  ⟨rfl, rfl⟩

/-- Claim C2 (amended): cleanup always runs when the run body ends, and
the context-close and engine-stop steps are individually guarded — their
failures are swallowed and do not skip later steps — but the session close
(downloader.py, line 201) is unguarded: when it raises, the remaining two
steps are skipped and the exception propagates out of `start_downloads`. -/
theorem claim_c2_cleanup_guarded_after_session_close (env : RunEnv)
    (h1 : env.healthOk = true) (h2 : env.queue ≠ []) :
    (env.sessionCloseRaises = false →
      (start_downloads env).cleanupAttempted
        = ["closeSession", "closeContext", "stopPlaywright"] ∧
      (start_downloads env).outcome ≠ Except.error ()) ∧
    (env.sessionCloseRaises = true →
      (start_downloads env).cleanupAttempted = ["closeSession"] ∧
      (start_downloads env).outcome = Except.error ()) := by
  have hq : env.queue.isEmpty = false := by
    cases h : env.queue with
    | nil => exact absurd h h2
    | cons a l => rfl
  refine ⟨fun hs => ⟨?_, ?_⟩, fun hs => ⟨?_, ?_⟩⟩ <;>
    simp [start_downloads, h1, hq, cleanupSteps, hs]

/-- Closed instance of C2 (amended): one course, session close succeeds
while the context close raises — all three cleanup steps are attempted and
nothing propagates. -/
theorem claim_c2_witness :
    (({ healthOk := true, queue := [CourseOutcome.ok],
        cancelBefore := fun _ => false, authRaises := false,
        sessionCloseRaises := false, contextCloseRaises := true,
        playwrightStopRaises := false } : RunEnv).sessionCloseRaises
          = false →
      (start_downloads
        { healthOk := true, queue := [CourseOutcome.ok],
          cancelBefore := fun _ => false, authRaises := false,
          sessionCloseRaises := false, contextCloseRaises := true,
          playwrightStopRaises := false }).cleanupAttempted
        = ["closeSession", "closeContext", "stopPlaywright"] ∧
      (start_downloads
        { healthOk := true, queue := [CourseOutcome.ok],
          cancelBefore := fun _ => false, authRaises := false,
          sessionCloseRaises := false, contextCloseRaises := true,
          playwrightStopRaises := false }).outcome ≠ Except.error ()) ∧
    (({ healthOk := true, queue := [CourseOutcome.ok],
        cancelBefore := fun _ => false, authRaises := false,
        sessionCloseRaises := false, contextCloseRaises := true,
        playwrightStopRaises := false } : RunEnv).sessionCloseRaises
          = true →
      (start_downloads
        { healthOk := true, queue := [CourseOutcome.ok],
          cancelBefore := fun _ => false, authRaises := false,
          sessionCloseRaises := false, contextCloseRaises := true,
          playwrightStopRaises := false }).cleanupAttempted
        = ["closeSession"] ∧
      (start_downloads
        { healthOk := true, queue := [CourseOutcome.ok],
          cancelBefore := fun _ => false, authRaises := false,
          sessionCloseRaises := false, contextCloseRaises := true,
          playwrightStopRaises := false }).outcome = Except.error ()) :=
  claim_c2_cleanup_guarded_after_session_close
    { healthOk := true, queue := [CourseOutcome.ok],
      cancelBefore := fun _ => false, authRaises := false,
      sessionCloseRaises := false, contextCloseRaises := true,
      playwrightStopRaises := false } rfl (by decide)

lemma runLoop_no_cancel (cancel : Nat → Bool)
    (hc : ∀ j, cancel j = false) :
    ∀ (outs : List CourseOutcome) (i : Nat),
      CourseOutcome.raisesCancelled ∉ outs →
      runLoop cancel outs i =
        { failed := outs.countP (fun o => o == CourseOutcome.retFalse
            || o == CourseOutcome.raisesExc),
          succeeded := outs.countP (fun o => o == CourseOutcome.ok),
          attempted := List.range' i outs.length } := by
  intro outs
  induction outs with
  | nil => intro i _; simp [runLoop, List.range']
  | cons o rest ih =>
    intro i h
    have ho : o ≠ CourseOutcome.raisesCancelled := by
      intro e
      exact h (e ▸ List.mem_cons_self o rest)
    have hrest : CourseOutcome.raisesCancelled ∉ rest :=
      fun hr => h (List.mem_cons_of_mem o hr)
    cases o with
    | ok =>
      simp [runLoop, hc i, ih (i + 1) hrest, List.countP_cons, List.range']
    | retFalse =>
      simp [runLoop, hc i, ih (i + 1) hrest, List.countP_cons, List.range']
    | raisesExc =>
      simp [runLoop, hc i, ih (i + 1) hrest, List.countP_cons, List.range']
    | raisesCancelled => exact absurd rfl ho

/-- Claim C3: absent cancellation, every queued course is attempted even
when earlier ones raise; each course that returned False or raised counts
as exactly one failure; and the run's boolean result is the test
`failed_count == 0`. -/
theorem claim_c3_per_course_failures_isolated (env : RunEnv)
    (h1 : env.healthOk = true) (h2 : env.queue ≠ [])
    (h3 : env.authRaises = false) (h4 : env.sessionCloseRaises = false)
    (h5 : ∀ j, env.cancelBefore j = false)
    (h6 : CourseOutcome.raisesCancelled ∉ env.queue) :
    (start_downloads env).attempted = List.range' 1 env.queue.length ∧
    (start_downloads env).failedCount =
      env.queue.countP (fun o => o == CourseOutcome.retFalse
        || o == CourseOutcome.raisesExc) ∧
    (start_downloads env).outcome =
      Except.ok ((start_downloads env).failedCount == 0) := by
  have hq : env.queue.isEmpty = false := by
    cases h : env.queue with
    | nil => exact absurd h h2
    | cons a l => rfl
  have hrl := runLoop_no_cancel env.cancelBefore h5 env.queue 1 h6
  refine ⟨?_, ?_, ?_⟩ <;>
    simp [start_downloads, h1, hq, h3, h4, cleanupSteps, hrl]

/-- Closed instance of C3: three queued courses where only course 2
raises — courses 1, 2 and 3 are all attempted, the failure count is 1,
and the run returns false. -/
theorem claim_c3_witness :
    (start_downloads
      { healthOk := true,
        queue := [CourseOutcome.ok, CourseOutcome.raisesExc,
          CourseOutcome.ok],
        cancelBefore := fun _ => false, authRaises := false,
        sessionCloseRaises := false, contextCloseRaises := false,
        playwrightStopRaises := false }).attempted = [1, 2, 3] ∧
    (start_downloads
      { healthOk := true,
        queue := [CourseOutcome.ok, CourseOutcome.raisesExc,
          CourseOutcome.ok],
        cancelBefore := fun _ => false, authRaises := false,
        sessionCloseRaises := false, contextCloseRaises := false,
        playwrightStopRaises := false }).failedCount = 1 ∧
    (start_downloads
      { healthOk := true,
        queue := [CourseOutcome.ok, CourseOutcome.raisesExc,
          CourseOutcome.ok],
        cancelBefore := fun _ => false, authRaises := false,
        sessionCloseRaises := false, contextCloseRaises := false,
        playwrightStopRaises := false }).outcome = Except.ok false := by
  have h := claim_c3_per_course_failures_isolated
    { healthOk := true,
      queue := [CourseOutcome.ok, CourseOutcome.raisesExc, CourseOutcome.ok],
      cancelBefore := fun _ => false, authRaises := false,
      sessionCloseRaises := false, contextCloseRaises := false,
      playwrightStopRaises := false }
    rfl (by decide) rfl rfl (fun j => rfl) (by decide)
  exact ⟨h.1, h.2.1, h.2.2⟩

/-- Claim C6: after a passing health check, an empty course queue makes
`start_downloads` return False before acquiring the HTTP session or the
browser — no resource-acquisition events and no cleanup steps occur. -/
theorem claim_c6_empty_queue_no_acquisition (env : RunEnv)
    (h1 : env.healthOk = true) (h2 : env.queue = []) :
    (start_downloads env).outcome = Except.ok false ∧
    (start_downloads env).acquired = [] ∧
    (start_downloads env).cleanupAttempted = [] := by
  refine ⟨?_, ?_, ?_⟩ <;> simp [start_downloads, h1, h2]

/-- Closed instance of C6: concrete run with a passing health check and an
empty queue. -/
theorem claim_c6_witness :
    (start_downloads
      { healthOk := true, queue := [], cancelBefore := fun _ => false,
        authRaises := false, sessionCloseRaises := false,
        contextCloseRaises := false, playwrightStopRaises := false }).outcome
      = Except.ok false ∧
    (start_downloads
      { healthOk := true, queue := [], cancelBefore := fun _ => false,
        authRaises := false, sessionCloseRaises := false,
        contextCloseRaises := false, playwrightStopRaises := false }).acquired
      = [] ∧
    (start_downloads
      { healthOk := true, queue := [], cancelBefore := fun _ => false,
        authRaises := false, sessionCloseRaises := false,
        contextCloseRaises := false,
        playwrightStopRaises := false }).cleanupAttempted = [] :=
  claim_c6_empty_queue_no_acquisition
    { healthOk := true, queue := [], cancelBefore := fun _ => false,
      authRaises := false, sessionCloseRaises := false,
      contextCloseRaises := false, playwrightStopRaises := false } rfl rfl
